import Mathlib

/-!
# Nexus-Lite core: shallow embedding and verification

This file embeds the fault-tolerance core of the Nexus-Lite repository in
Lean 4 and proves the specification's testable properties about it:

* the `CircuitBreaker` state machine (`canExecute`, `recordFailure`,
  `recordSuccess`);
* the `RetryWithBackoff` executor with its exponential backoff and optional
  circuit breaker;
* the consumer's `checkLiquidity` dependency check, `validateTransaction`
  rule evaluation and `broadcastTransactionToWS` fan-out step;
* the WebSocket hub's broadcast step (`Run` loop, broadcast case).

Modelling conventions.  The Go code is single-threaded per call; atomic
loads/stores and compare-and-swap operations are modelled by plain state
passing (a sequential CAS always succeeds).  Durations and timestamps are
`Int` nanoseconds (Go `time.Duration` / `UnixNano`).  Go `int32` counters are
modelled as `Int`; in every behaviour proved here the counters stay far below
`2^31`, so wrap-around never occurs.  The `float64` backoff multiplier is
modelled as `ℚ`: on the integral nanosecond values reached by the
configurations considered (all below `2^53`), `float64` arithmetic is exact,
and the Go `time.Duration(...)` conversion of the nonnegative product is
written `⌊·⌋`.  Library calls (`xml.Unmarshal`, `strconv.ParseFloat`,
`fmt.Sscanf`, the gRPC liquidity client, the BIC configuration map) are
modelled as explicit oracle inputs: an `Option Document` parse outcome and
`String → Option ℚ` number parsers.  Wall-clock-only record fields
(`Timestamp`, `Latency`, the `tx-<nanos>` id) are omitted from the records.
-/

namespace NexusLite


/-! ## Circuit breaker (`circuitbreaker.go`) -/

/-- Model of `CircuitState` from the source: `StateClosed`, `StateHalfOpen`, `StateOpen`. -/
inductive CircuitState where
  | Closed
  | HalfOpen
  | Open
deriving DecidableEq, Repr

/-- Model of `CircuitBreaker` struct.  The `name` field (used only for logging) is
omitted; times are `Int` nanoseconds. -/
structure CircuitBreaker where
  maxFailures : Int
  resetTimeout : Int
  halfOpenSuccess : Int
  state : CircuitState
  failures : Int
  lastFailureTime : Int
  halfOpenSuccesses : Int
deriving DecidableEq, Repr

/-- Model of `NewCircuitBreaker`: starts Closed with zeroed counters. -/
def NewCircuitBreaker (maxFailures resetTimeout halfOpenSuccess : Int) :
    CircuitBreaker :=
  { maxFailures := maxFailures
    resetTimeout := resetTimeout
    halfOpenSuccess := halfOpenSuccess
    state := .Closed
    failures := 0
    lastFailureTime := 0
    halfOpenSuccesses := 0 }

/-- Model of `CircuitBreaker.canExecute` at clock `now` (UnixNano): returns whether the
call is allowed together with the updated breaker.  In the Open case the Go
code tests `time.Since(time.Unix(0, lastFailure)) > resetTimeout`, i.e.
`now - lastFailureTime > resetTimeout`, and on success CASes the state to
HalfOpen and zeroes `halfOpenSuccesses`. -/
def canExecute (now : Int) (cb : CircuitBreaker) : Bool × CircuitBreaker :=
  match cb.state with
  | .Closed => (true, cb)
  | .Open =>
      if cb.resetTimeout < now - cb.lastFailureTime then
        (true, { cb with state := .HalfOpen, halfOpenSuccesses := 0 })
      else
        (false, cb)
  | .HalfOpen => (true, cb)

/-- Model of `CircuitBreaker.recordFailure` at clock `now`: increments `failures`,
stamps `lastFailureTime`, then branches on the state read at entry
(Closed: open once the incremented count reaches `maxFailures`;
HalfOpen: reopen and zero `failures`; Open: no state change). -/
def recordFailure (now : Int) (cb : CircuitBreaker) : CircuitBreaker :=
  let cb' := { cb with failures := cb.failures + 1, lastFailureTime := now }
  match cb.state with
  | .Closed =>
      if cb.maxFailures ≤ cb'.failures then { cb' with state := .Open } else cb'
  | .HalfOpen => { cb' with state := .Open, failures := 0 }
  | .Open => cb'

/-- Model of `CircuitBreaker.recordSuccess`: Closed resets `failures`; HalfOpen counts
probe successes and closes (zeroing both counters) once `halfOpenSuccess` is
reached; Open is untouched. -/
def recordSuccess (cb : CircuitBreaker) : CircuitBreaker :=
  match cb.state with
  | .Closed => { cb with failures := 0 }
  | .HalfOpen =>
      let s := cb.halfOpenSuccesses + 1
      if cb.halfOpenSuccess ≤ s then
        { cb with state := .Closed, failures := 0, halfOpenSuccesses := 0 }
      else
        { cb with halfOpenSuccesses := s }
  | .Open => cb

/-- An observable event fed to the breaker: one `recordFailure` or one
`recordSuccess` call. -/
inductive CBEvent where
  | failure
  | success
deriving DecidableEq, Repr

/-- Run a sequence of record events against a breaker (all stamped with the
same clock `now`; the clock is irrelevant to the state/counter evolution). -/
def runEvents (now : Int) (cb : CircuitBreaker) : List CBEvent → CircuitBreaker
  | [] => cb
  | .failure :: es => runEvents now (recordFailure now cb) es
  | .success :: es => runEvents now (recordSuccess cb) es

/-- Trailing-run / maximal-run bookkeeping for consecutive failures:
`consecAux es t m` threads the current trailing failure count `t` and the
maximum consecutive-failure run `m` seen so far. -/
def consecAux : List CBEvent → Nat → Nat → Nat × Nat
  | [], t, m => (t, m)
  | .failure :: es, t, m => consecAux es (t + 1) (max m (t + 1))
  | .success :: es, _t, m => consecAux es 0 m

/-- The longest run of consecutive `failure` events in the sequence. -/
def maxConsecFailures (es : List CBEvent) : Nat := (consecAux es 0 0).2

/-! ## Retry with backoff (`RetryConfig`, `RetryWithBackoff`) -/

/-- Model of `RetryConfig` from the source; durations in `Int` nanoseconds, the
`float64` multiplier as `ℚ` (exact on the values arising here). -/
structure RetryConfig where
  MaxAttempts : Int
  InitialDelay : Int
  MaxDelay : Int
  Multiplier : ℚ
  CircuitBreaker : Option CircuitBreaker
deriving DecidableEq, Repr

/-- Model of `DefaultRetryConfig` (the `name` string is omitted as in
`NewCircuitBreaker`): 3 attempts, 50ms initial delay, 500ms max delay,
multiplier 2.0, breaker with maxFailures 5, resetTimeout 30s,
halfOpenSuccess 2. -/
def DefaultRetryConfig : RetryConfig :=
  { MaxAttempts := 3
    InitialDelay := 50000000
    MaxDelay := 500000000
    Multiplier := 2
    CircuitBreaker := some (NewCircuitBreaker 5 30000000000 2) }

/-- The outcome of `RetryWithBackoff`: success, the
`"circuit breaker open: %w ErrCircuitOpen"` fast-fail, or the
`"max retries (%d) exceeded: %w lastErr"` aggregate failure wrapping the last
underlying error. -/
inductive RetryResult where
  | ok
  | circuitOpen
  | maxRetries (lastErr : Option String)
deriving DecidableEq, Repr

/-- Observable trace of one `RetryWithBackoff` call: the returned result, how
many times the wrapped operation was invoked, the backoff sleeps performed (in
order), and the final breaker state. -/
structure RetryTrace where
  result : RetryResult
  calls : Nat
  sleeps : List Int
  breaker : Option CircuitBreaker
deriving DecidableEq, Repr

/-- Backoff update from the source:
`delay = time.Duration(float64(delay) * Multiplier); if delay > MaxDelay { delay = MaxDelay }`.
The float64→Duration conversion truncates; the products arising here are
nonnegative integers below `2^53`, where float64 arithmetic is exact and
truncation agrees with `⌊·⌋`. -/
def nextDelay (delay : Int) (mult : ℚ) (maxDelay : Int) : Int :=
  let d : Int := ⌊(delay : ℚ) * mult⌋
  if maxDelay < d then maxDelay else d

/-- The loop body of `RetryWithBackoff`, one constructor case per remaining
attempt.  `fn i` is the outcome of the `i`-th invocation of the wrapped
operation (`none` = success); the breaker, when bound, is consulted before
each attempt and records each outcome.  Context cancellation during the sleep
is not modelled (no caller in scope cancels). -/
def retryAux (fn : Nat → Option String) (mult : ℚ) (maxDelay now : Int) :
    Nat → Nat → Int → Option CircuitBreaker → Option String → List Int → RetryTrace
  | 0, idx, _delay, cb, lastErr, sleeps =>
      { result := .maxRetries lastErr, calls := idx, sleeps := sleeps, breaker := cb }
  | remaining + 1, idx, delay, cb, lastErr, sleeps =>
      let checked : Bool × Option CircuitBreaker :=
        match cb with
        | some b => ((canExecute now b).1, some (canExecute now b).2)
        | none => (true, none)
      if checked.1 then
        match fn idx with
        | none =>
            { result := .ok, calls := idx + 1, sleeps := sleeps,
              breaker := checked.2.map recordSuccess }
        | some e =>
            let cb' := checked.2.map (recordFailure now)
            if remaining = 0 then
              { result := .maxRetries (some e), calls := idx + 1,
                sleeps := sleeps, breaker := cb' }
            else
              retryAux fn mult maxDelay now remaining (idx + 1)
                (nextDelay delay mult maxDelay) cb' (some e) (sleeps ++ [delay])
      else
        { result := .circuitOpen, calls := idx, sleeps := sleeps, breaker := checked.2 }

/-- Model of `RetryWithBackoff(ctx, config, fn)` as a trace-producing function.  The Go
loop runs `attempt` from 1 to `MaxAttempts`, i.e. `MaxAttempts.toNat`
iterations. -/
def RetryWithBackoff (cfg : RetryConfig) (now : Int) (fn : Nat → Option String) :
    RetryTrace :=
  retryAux fn cfg.Multiplier cfg.MaxDelay now cfg.MaxAttempts.toNat 0
    cfg.InitialDelay cfg.CircuitBreaker none []

/-- Model of `delayIter mult maxDelay delay k`: the backoff delay in force `k` updates
after starting from `delay`. -/
def delayIter (mult : ℚ) (maxDelay : Int) : Int → Nat → Int
  | delay, 0 => delay
  | delay, k + 1 => delayIter mult maxDelay (nextDelay delay mult maxDelay) k

/-- Spec-side twin of the retry loop for the nil-breaker refinement: the
spec's §4.2 executor with no breaker interaction at all — attempt up to
`maxAttempts` times, on failure sleep `delay` and set
`delay = min(delay × multiplier, maxDelay)`, after exhaustion return the
aggregate failure with the last error. -/
def specPlainRetryAux (fn : Nat → Option String) (mult : ℚ) (maxDelay : Int) :
    Nat → Nat → Int → Option String → List Int → RetryTrace
  | 0, idx, _delay, lastErr, sleeps =>
      { result := .maxRetries lastErr, calls := idx, sleeps := sleeps, breaker := none }
  | remaining + 1, idx, delay, lastErr, sleeps =>
      match fn idx with
      | none => { result := .ok, calls := idx + 1, sleeps := sleeps, breaker := none }
      | some e =>
          if remaining = 0 then
            { result := .maxRetries (some e), calls := idx + 1,
              sleeps := sleeps, breaker := none }
          else
            specPlainRetryAux fn mult maxDelay remaining (idx + 1)
              (nextDelay delay mult maxDelay) (some e) (sleeps ++ [delay])

/-- Spec-side twin of `RetryWithBackoff` without a breaker. -/
def specPlainRetry (cfg : RetryConfig) (fn : Nat → Option String) : RetryTrace :=
  specPlainRetryAux fn cfg.Multiplier cfg.MaxDelay cfg.MaxAttempts.toNat 0
    cfg.InitialDelay none []

/-! ## ISO 20022 document model (consumer `main.go`)

The pacs.008 structs, restricted to the fields read by `checkLiquidity`,
`validateTransaction` and `broadcastTransactionToWS` (XML namespace
attributes, `CreDtTm`, the account/agent fields and `UETR` are never read by
the modelled functions and are omitted).  A raw Kafka payload is modelled by
its `xml.Unmarshal` outcome: `none` for a parse error, `some doc` otherwise;
`strconv.ParseFloat` and `fmt.Sscanf("%f")` are oracle inputs of type
`String → Option ℚ`, and the `bicMap` configuration table is an oracle
`String → Option String`. -/

structure FinancialInstitution where
  BICFI : String
deriving DecidableEq, Repr

structure Agent where
  FinInstnId : FinancialInstitution
deriving DecidableEq, Repr

structure PostalAddr where
  Ctry : String
deriving DecidableEq, Repr

structure Party where
  Nm : String
  PstlAdr : PostalAddr
deriving DecidableEq, Repr

structure PaymentID where
  InstrId : String
  EndToEndId : String
deriving DecidableEq, Repr

structure Amount where
  Ccy : String
  Value : String
deriving DecidableEq, Repr

structure TransactionInfo where
  PmtId : PaymentID
  IntrBkSttlmAmt : Amount
  IntrBkSttlmDt : String
  ChrgBr : String
  DbtrAgt : Agent
  CdtrAgt : Agent
  Dbtr : Party
  Cdtr : Party
deriving DecidableEq, Repr

structure SettlementInfo where
  SttlmMtd : String
deriving DecidableEq, Repr

structure GroupHeader where
  MsgId : String
  NbOfTxs : Int
  SttlmInf : SettlementInfo
deriving DecidableEq, Repr

structure CreditTransfer where
  GrpHdr : GroupHeader
  CdtTrfTxInf : List TransactionInfo
deriving DecidableEq, Repr

structure Document where
  FIToFICstmrCdtTrf : CreditTransfer
deriving DecidableEq, Repr

/-- Model of `ValidationResult` (the wall-clock `Timestamp`/`Latency` fields are
omitted). -/
structure ValidationResult where
  Valid : Bool
  ErrorCode : String
  ErrorMsg : String
  MsgId : String
deriving DecidableEq, Repr

/-! ## `validateTransaction` -/

/-- One `if cond { result.Valid = false; result.ErrorCode = code;
result.ErrorMsg = msg }` block from the source. -/
def applyRule (res : ValidationResult) (failed : Bool) (code msg : String) :
    ValidationResult :=
  if failed then { res with Valid := false, ErrorCode := code, ErrorMsg := msg }
  else res

/-- A rule outcome: did it fail, its error code, its error message. -/
abbrev Rule := Bool × String × String

def applyRules (res : ValidationResult) (rs : List Rule) : ValidationResult :=
  rs.foldl (fun r rule => applyRule r rule.1 rule.2.1 rule.2.2) res

/-- Model of `validSttlmMethods` membership: CLRG, INDA, INGA, COVE. -/
def validSttlmMethods (s : String) : Bool :=
  s == "CLRG" || s == "INDA" || s == "INGA" || s == "COVE"

/-- Model of `validChrgBr` membership: DEBT, CRED, SHAR, SLEV. -/
def validChrgBr (s : String) : Bool :=
  s == "DEBT" || s == "CRED" || s == "SHAR" || s == "SLEV"

/-- Model of `len(bic) < 8 || len(bic) > 11` (byte length; BICs are ASCII so this
equals the character length). -/
def bicLenBad (bic : String) : Bool :=
  bic.length < 8 || 11 < bic.length

/-- The five per-transaction rules of the source loop, for transaction
index `i`. -/
def txRules (i : Nat) (tx : TransactionInfo) : List Rule :=
  [ (tx.PmtId.InstrId == "", "MISSING_PMT_ID_TX" ++ toString i,
      "Payment ID (InstrId) is required for transaction " ++ toString i),
    (tx.IntrBkSttlmAmt.Ccy == "", "MISSING_CURRENCY_TX" ++ toString i,
      "Currency is required for transaction " ++ toString i),
    (tx.IntrBkSttlmAmt.Value == "", "MISSING_AMOUNT_TX" ++ toString i,
      "Amount is required for transaction " ++ toString i),
    (tx.IntrBkSttlmDt == "", "MISSING_STTLM_DT_TX" ++ toString i,
      "Interbank Settlement Date is required for transaction " ++ toString i),
    (!validChrgBr tx.ChrgBr, "INVALID_CHRG_BR_TX" ++ toString i,
      "Charge Bearer must be one of: DEBT, CRED, SHAR, SLEV for transaction " ++
        toString i) ]

/-- The `for i, tx := range CdtTrfTxInf` loop body of `validateTransaction`. -/
def txLoop (res : ValidationResult) (i : Nat) :
    List TransactionInfo → ValidationResult
  | [] => res
  | tx :: rest => txLoop (applyRules res (txRules i tx)) (i + 1) rest

/-- Model of `validateTransaction` on the parse outcome of the raw data: XML parse
errors are rejected immediately; otherwise the group-header rules, the
first-transaction BIC rules and the per-transaction rules are all evaluated in
source order, each failing rule overwriting `ErrorCode`/`ErrorMsg`. -/
def validateTransaction (data : Option Document) : ValidationResult :=
  match data with
  | none =>
      { Valid := false, ErrorCode := "XML_PARSE_ERROR",
        ErrorMsg := "Failed to parse XML", MsgId := "" }
  | some doc =>
      let res : ValidationResult :=
        { Valid := true, ErrorCode := "", ErrorMsg := "", MsgId := "" }
      let hdr := doc.FIToFICstmrCdtTrf.GrpHdr
      let res :=
        if hdr.MsgId == "" then
          { res with
              Valid := false
              ErrorCode := "MISSING_MSG_ID"
              ErrorMsg := "Message ID is required" }
        else { res with MsgId := hdr.MsgId }
      let res := applyRule res (decide (hdr.NbOfTxs ≤ 0)) "INVALID_TX_COUNT"
        "Transaction count must be greater than 0"
      let res := applyRule res (!validSttlmMethods hdr.SttlmInf.SttlmMtd)
        "INVALID_STTLM_MTD" "Settlement Method must be one of: CLRG, INDA, INGA, COVE"
      let txs := doc.FIToFICstmrCdtTrf.CdtTrfTxInf
      let res := applyRule res txs.isEmpty "NO_TRANSACTIONS"
        "At least one transaction is required"
      let res :=
        match txs with
        | [] => res
        | tx0 :: _ =>
            let res := applyRule res (bicLenBad tx0.DbtrAgt.FinInstnId.BICFI)
              "INVALID_DBTR_BIC" "Debtor BIC must be 8 or 11 characters"
            applyRule res (bicLenBad tx0.CdtrAgt.FinInstnId.BICFI)
              "INVALID_CDTR_BIC" "Creditor BIC must be 8 or 11 characters"
      txLoop res 0 txs

/-- All rule outcomes of `validateTransaction` on a parsed document, in the
source's evaluation order: group-header rules, then the first-transaction BIC
rules, then the per-transaction rules. -/
def txRulesList (i : Nat) : List TransactionInfo → List Rule
  | [] => []
  | tx :: rest => txRules i tx ++ txRulesList (i + 1) rest

def ruleResults (doc : Document) : List Rule :=
  let hdr := doc.FIToFICstmrCdtTrf.GrpHdr
  let txs := doc.FIToFICstmrCdtTrf.CdtTrfTxInf
  [ (hdr.MsgId == "", "MISSING_MSG_ID", "Message ID is required"),
    (decide (hdr.NbOfTxs ≤ 0), "INVALID_TX_COUNT",
      "Transaction count must be greater than 0"),
    (!validSttlmMethods hdr.SttlmInf.SttlmMtd, "INVALID_STTLM_MTD",
      "Settlement Method must be one of: CLRG, INDA, INGA, COVE"),
    (txs.isEmpty, "NO_TRANSACTIONS", "At least one transaction is required") ] ++
  (match txs with
   | [] => []
   | tx0 :: _ =>
      [ (bicLenBad tx0.DbtrAgt.FinInstnId.BICFI, "INVALID_DBTR_BIC",
          "Debtor BIC must be 8 or 11 characters"),
        (bicLenBad tx0.CdtrAgt.FinInstnId.BICFI, "INVALID_CDTR_BIC",
          "Creditor BIC must be 8 or 11 characters") ]) ++
  txRulesList 0 txs

/-- The last failing rule in evaluation order (the one whose code the result
reports). -/
def lastFailingRule (rs : List Rule) : Option Rule :=
  rs.reverse.find? (fun r => r.1)

/-- Witness document for C7: valid header, one transaction with an empty
`InstrId` (fails `MISSING_PMT_ID_TX0`) and an invalid charge bearer (fails
`INVALID_CHRG_BR_TX0`, the last — most specific — failing rule). -/
def sampleDocC7 : Document :=
  { FIToFICstmrCdtTrf :=
    { GrpHdr :=
      { MsgId := "MSG-001", NbOfTxs := 1, SttlmInf := { SttlmMtd := "CLRG" } }
      CdtTrfTxInf :=
        [ { PmtId := { InstrId := "", EndToEndId := "E2E-1" }
            IntrBkSttlmAmt := { Ccy := "USD", Value := "100.00" }
            IntrBkSttlmDt := "2025-01-01"
            ChrgBr := "XXXX"
            DbtrAgt := { FinInstnId := { BICFI := "AAAAUS33" } }
            CdtrAgt := { FinInstnId := { BICFI := "BBBBGB22" } }
            Dbtr := { Nm := "Alpha Bank", PstlAdr := { Ctry := "US" } }
            Cdtr := { Nm := "Beta Bank", PstlAdr := { Ctry := "GB" } } } ] } }

/-! ## `checkLiquidity` (consumer `main.go` + `liquidity_client.go`) -/

/-- The gRPC liquidity client, modelled by its two remote responses:
`CheckLiquidity(bankID, amount, currency)` yields `none` on a communication
error and `some (approved, balance, errorCode)` otherwise; `CreditBank`
likewise (`none` = error, `some (success, newBalance)`). -/
structure LiquidityClient where
  CheckLiquidity : String → ℚ → String → Option (Bool × ℚ × String)
  CreditBank : String → ℚ → String → Option (Bool × ℚ)

/-- Model of `ExtractBankIDFromBIC` over the loaded `bicMap` (oracle): the mapped bank
id, or the BIC itself when unmapped. -/
def ExtractBankIDFromBIC (bicMap : String → Option String) (bic : String) :
    String :=
  match bicMap bic with
  | some bankID => bankID
  | none => bic

/-- Model of `checkLiquidity` on the parse outcome of the raw data.  Returns
`(approved, errorCode, errorMsg, balance)` exactly as the source's four return
values.  XML parse failure and amount parse failure reject locally; an absent
client or a communication error from `CheckLiquidity` falls open to approval.
The `CreditBank` leg only logs and never affects the returned tuple, so it is
not threaded through the result. -/
def checkLiquidity (client : Option LiquidityClient)
    (bicMap : String → Option String) (parseFloat : String → Option ℚ)
    (data : Option Document) : Bool × String × String × ℚ :=
  match data with
  | none => (false, "LIQUIDITY_CHECK_ERROR", "Failed to parse XML for liquidity check", 0)
  | some doc =>
      match doc.FIToFICstmrCdtTrf.CdtTrfTxInf with
      | [] => (true, "", "", 0)
      | tx :: _ =>
          let sourceBIC := tx.DbtrAgt.FinInstnId.BICFI
          let sourceBankID := ExtractBankIDFromBIC bicMap sourceBIC
          match parseFloat tx.IntrBkSttlmAmt.Value with
          | none => (false, "LIQUIDITY_CHECK_ERROR", "Failed to parse amount", 0)
          | some amount =>
              let currency := tx.IntrBkSttlmAmt.Ccy
              match client with
              | none => (true, "", "", 0)
              | some svc =>
                  match svc.CheckLiquidity sourceBankID amount currency with
                  | none => (true, "", "", 0)
                  | some (approved, balance, errorCode) =>
                      if approved then (true, "", "", 0)
                      else (false, errorCode,
                        "Liquidity check rejected: " ++ errorCode, balance)

/-! ## `broadcastTransactionToWS` and the worker's per-item step -/

/-- Model of `TransactionMessage` restricted to the fields computed from the inputs
(`ID` is a wall-clock nonce, `Timestamp`/`Latency` are wall-clock, `XML`
echoes the raw bytes; all omitted). -/
structure TransactionMessage where
  MsgID : String
  Source : String
  SourceCountry : String
  Destination : String
  DestCountry : String
  Amount : ℚ
  Currency : String
  Status : String
  ErrorCode : String
  ErrorMsg : String
deriving DecidableEq, Repr

/-- Model of `extractCountryFromBIC`: characters 4–6 of the BIC, or `"XX"` when the
BIC is shorter than 6 (byte slicing; BICs are ASCII). -/
def extractCountryFromBIC (bic : String) : String :=
  if 6 ≤ bic.length then ((bic.drop 4).take 2) else "XX"

/-- Model of `mapStatus`. -/
def mapStatus (valid : Bool) : String :=
  if valid then "approved" else "rejected"

/-- Model of `broadcastTransactionToWS` on the parse outcome of the raw data: `none`
models returning without offering anything to the hub (parse failure or no
transactions); `some msg` models `BroadcastTransaction(msg)`.  `scan` is the
`fmt.Sscanf("%f")` oracle; on scan failure the amount keeps its zero
initialisation. -/
def broadcastTransactionToWS (scan : String → Option ℚ)
    (result : ValidationResult) (data : Option Document) :
    Option TransactionMessage :=
  match data with
  | none => none
  | some doc =>
      match doc.FIToFICstmrCdtTrf.CdtTrfTxInf with
      | [] => none
      | tx :: _ =>
          let amount : ℚ :=
            if tx.IntrBkSttlmAmt.Value == "" then 0
            else (scan tx.IntrBkSttlmAmt.Value).getD 0
          let dbtrBIC := tx.DbtrAgt.FinInstnId.BICFI
          let cdtrBIC := tx.CdtrAgt.FinInstnId.BICFI
          let sourceCountry :=
            if tx.Dbtr.PstlAdr.Ctry == "" then extractCountryFromBIC dbtrBIC
            else tx.Dbtr.PstlAdr.Ctry
          let destCountry :=
            if tx.Cdtr.PstlAdr.Ctry == "" then extractCountryFromBIC cdtrBIC
            else tx.Cdtr.PstlAdr.Ctry
          some
            { MsgID := doc.FIToFICstmrCdtTrf.GrpHdr.MsgId
              Source := tx.Dbtr.Nm
              SourceCountry := sourceCountry
              Destination := tx.Cdtr.Nm
              DestCountry := destCountry
              Amount := amount
              Currency := tx.IntrBkSttlmAmt.Ccy
              Status := mapStatus result.Valid
              ErrorCode := result.ErrorCode
              ErrorMsg := result.ErrorMsg }

/-- The body of `processMessages` for one dequeued work item: liquidity check
first; on denial emit a rejection result, otherwise run `validateTransaction`;
in both paths broadcast to the WebSocket hub and send the result to the
results channel.  Returns (result sent to the results channel, message offered
to the hub — `none` when nothing was broadcast). -/
def processItem (client : Option LiquidityClient)
    (bicMap : String → Option String) (parseFloat scan : String → Option ℚ)
    (data : Option Document) : ValidationResult × Option TransactionMessage :=
  let lc := checkLiquidity client bicMap parseFloat data
  if lc.1 then
    let result := validateTransaction data
    (result, broadcastTransactionToWS scan result data)
  else
    let result : ValidationResult :=
      { Valid := false, ErrorCode := lc.2.1, ErrorMsg := lc.2.2.1, MsgId := "" }
    (result, broadcastTransactionToWS scan result data)

/-! ## WebSocket hub broadcast step (`websocket.go`, `Run`) -/

/-- A connected client as the hub sees it: its bounded outbound buffer
(`send`, a channel of capacity 256 in `handleWebSocket`) plus an identity tag
for stating membership.  The transport connection itself is not modelled. -/
structure WSClient where
  id : Nat
  cap : Nat
  send : List String
deriving DecidableEq, Repr

/-- The `select { case client.send <- message: default: ... }` offer from the
`Run` loop's broadcast case: enqueue when the buffer has room, otherwise the
client is evicted (`none`: its channel is closed and it is deleted from the
set). -/
def offerOrEvict (m : String) (c : WSClient) : Option WSClient :=
  if c.send.length < c.cap then some { c with send := c.send ++ [m] } else none

/-- One broadcast iteration of `WebSocketHub.Run`: offer `m` to every client
in the set; returns (the remaining subscriber set with the message enqueued,
the evicted clients whose channels were closed). -/
def runBroadcastStep (clients : List WSClient) (m : String) :
    List WSClient × List WSClient :=
  (clients.filterMap (offerOrEvict m),
   clients.filter (fun c => (offerOrEvict m c).isNone))

theorem consecAux_snd_le (es : List CBEvent) :
    ∀ t m : Nat, m ≤ (consecAux es t m).2 := by
  induction es with
  | nil => intro t m; simp [consecAux]
  | cons e es ih =>
      intro t m
      cases e with
      | failure =>
          calc m ≤ max m (t + 1) := le_max_left _ _
            _ ≤ (consecAux es (t + 1) (max m (t + 1))).2 := ih _ _
            _ = (consecAux (.failure :: es) t m).2 := rfl
      | success => exact ih 0 m

theorem runEvents_open (now : Int) (cb : CircuitBreaker)
    (h : cb.state = .Open) : ∀ es, (runEvents now cb es).state = .Open := by
  intro es
  induction es generalizing cb with
  | nil => simpa [runEvents]
  | cons e es ih =>
      cases e with
      | failure =>
          show (runEvents now (recordFailure now cb) es).state = .Open
          exact ih _ (by simp [recordFailure, h])
      | success =>
          show (runEvents now (recordSuccess cb) es).state = .Open
          exact ih _ (by simp [recordSuccess, h])

/-- Key invariant for C1: starting from a Closed breaker whose failure counter
equals the current trailing failure run `t`, the final state is Open exactly
when the maximal consecutive-failure run reaches the threshold. -/
theorem runEvents_closed_inv (now mf : Int) :
    ∀ (es : List CBEvent) (t m : Nat) (cb : CircuitBreaker),
      cb.maxFailures = mf → cb.state = .Closed → cb.failures = (t : Int) →
      (t : Int) < mf → (m : Int) < mf →
      ((runEvents now cb es).state = .Open ↔ mf ≤ ((consecAux es t m).2 : Int)) := by
  intro es
  induction es with
  | nil =>
      intro t m cb hmax hstate hfail ht hm
      constructor
      · intro hopen
        rw [show runEvents now cb [] = cb from rfl, hstate] at hopen
        exact absurd hopen (by simp)
      · intro hle
        exact absurd hle (by simpa [consecAux] using hm)
  | cons e es ih =>
      intro t m cb hmax hstate hfail ht hm
      cases e with
      | failure =>
          show (runEvents now (recordFailure now cb) es).state = .Open ↔ _
          by_cases hth : mf ≤ (t : Int) + 1
          · -- the breaker opens on this failure and stays Open
            have hopen : (recordFailure now cb).state = .Open := by
              simp only [recordFailure, hstate, hfail]
              rw [if_pos (by rw [hmax]; exact hth)]
            rw [runEvents_open now _ hopen es]
            simp only [consecAux]
            constructor
            · intro _
              have h2 : ((t : Int) + 1) ≤ ((max m (t + 1) : Nat) : Int) := by
                exact_mod_cast le_max_right m (t + 1)
              calc mf ≤ (t : Int) + 1 := hth
                _ ≤ ((max m (t + 1) : Nat) : Int) := h2
                _ ≤ _ := by exact_mod_cast consecAux_snd_le es (t + 1) (max m (t + 1))
            · intro _; trivial
          · -- counter still below threshold: still Closed, trailing run t+1
            push_neg at hth
            have hrec : recordFailure now cb =
                { cb with failures := cb.failures + 1, lastFailureTime := now } := by
              simp only [recordFailure, hstate]
              rw [if_neg (by rw [hmax, hfail]; omega)]
            have hmaxlt : ((max m (t + 1) : Nat) : Int) < mf := by
              rcases max_cases m (t + 1) with ⟨hmx, _⟩ | ⟨hmx, _⟩ <;> rw [hmx]
              · exact hm
              · push_cast; omega
            have := ih (t + 1) (max m (t + 1)) (recordFailure now cb)
              (by rw [hrec]; exact hmax) (by rw [hrec]; exact hstate)
              (by rw [hrec]; show cb.failures + 1 = _; rw [hfail]; push_cast; ring)
              (by push_cast; omega) hmaxlt
            simpa [consecAux] using this
      | success =>
          show (runEvents now (recordSuccess cb) es).state = .Open ↔ _
          have hrec : recordSuccess cb = { cb with failures := 0 } := by
            simp only [recordSuccess, hstate]
          have hmf0 : ((0 : Nat) : Int) < mf := by
            have h0 : (0 : Int) ≤ (t : Int) := Int.natCast_nonneg t
            push_cast
            omega
          have := ih 0 m (recordSuccess cb)
            (by rw [hrec]; exact hmax) (by rw [hrec]; exact hstate)
            (by rw [hrec]; simp) hmf0 hm
          simpa [consecAux] using this

/-- Claim C1. For every sequence of `recordFailure`/`recordSuccess` calls on a
breaker started in the Closed state, the breaker ends Open exactly when some
run of consecutive failures (a success in Closed resets the count) reaches the
configured `maxFailures` threshold, and never on fewer consecutive failures. -/
theorem circuitBreaker_opens_iff_threshold (mf rt ho now : Int) (hmf : 1 ≤ mf)
    (es : List CBEvent) :
    (runEvents now (NewCircuitBreaker mf rt ho) es).state = .Open ↔
      mf ≤ (maxConsecFailures es : Int) :=
  runEvents_closed_inv now mf es 0 0 (NewCircuitBreaker mf rt ho) rfl rfl rfl
    (by push_cast; omega) (by push_cast; omega)

/-- Witness for C1 at threshold 2: two consecutive failures open the breaker. -/
theorem circuitBreaker_opens_iff_threshold_witness :
    (runEvents 0 (NewCircuitBreaker 2 1000 1) [.failure, .failure]).state = .Open ↔
      (2 : Int) ≤ (maxConsecFailures [.failure, .failure] : Int) :=
  circuitBreaker_opens_iff_threshold 2 1000 1 0 (by norm_num) [.failure, .failure]

/-- Case analysis of `canExecute` on an Open breaker (shared helper). -/
theorem canExecute_open_cases (now : Int) (cb : CircuitBreaker)
    (h : cb.state = .Open) :
    (now - cb.lastFailureTime ≤ cb.resetTimeout → canExecute now cb = (false, cb)) ∧
    (cb.resetTimeout < now - cb.lastFailureTime →
      canExecute now cb = (true, { cb with state := .HalfOpen, halfOpenSuccesses := 0 })) := by
  refine ⟨fun hle => ?_, fun hlt => ?_⟩
  · simp only [canExecute, h]
    rw [if_neg (by omega)]
  · simp only [canExecute, h]
    rw [if_pos hlt]

/-- Claim C3. An Open breaker rejects every call while the elapsed time since the
last recorded failure has not exceeded `resetTimeout` (leaving the breaker
unchanged); once the elapsed time exceeds `resetTimeout`, the next
`canExecute` call flips the state to HalfOpen, zeroes the probe-success
counter (the sequential rendering of the source's compare-and-set, which makes
the transition happen at most once) and returns true. -/
theorem canExecute_open_timeout (now : Int) (cb : CircuitBreaker)
    (h : cb.state = .Open) :
    (now - cb.lastFailureTime ≤ cb.resetTimeout → canExecute now cb = (false, cb)) ∧
    (cb.resetTimeout < now - cb.lastFailureTime →
      canExecute now cb = (true, { cb with state := .HalfOpen, halfOpenSuccesses := 0 })) :=
  canExecute_open_cases now cb h

/-- Witness for C3: a breaker that failed at t=100 with resetTimeout 1000
rejects at t=200 and probes at t=2000. -/
theorem canExecute_open_timeout_witness :
    canExecute 200 ⟨5, 1000, 2, .Open, 5, 100, 0⟩ =
      (false, ⟨5, 1000, 2, .Open, 5, 100, 0⟩) ∧
    canExecute 2000 ⟨5, 1000, 2, .Open, 5, 100, 0⟩ =
      (true, ⟨5, 1000, 2, .HalfOpen, 5, 100, 0⟩) :=
  ⟨(canExecute_open_timeout 200 ⟨5, 1000, 2, .Open, 5, 100, 0⟩ rfl).1 (by norm_num),
   (canExecute_open_timeout 2000 ⟨5, 1000, 2, .Open, 5, 100, 0⟩ rfl).2 (by norm_num)⟩

/-- Claim C4, counterexample. The claim says a failure in HalfOpen clears the
probe-success counter as well as the failure counter.  On a HalfOpen breaker
with one recorded probe success, `recordFailure` reopens the circuit and
zeroes `failures`, but leaves `halfOpenSuccesses` at 1 — the probe-success
counter is not cleared here (it is only zeroed on the next Open→HalfOpen
transition inside `canExecute`). -/
theorem halfOpen_failure_counterexample :
    (recordFailure 500 ⟨5, 1000, 2, .HalfOpen, 0, 100, 1⟩).state = .Open ∧
    (recordFailure 500 ⟨5, 1000, 2, .HalfOpen, 0, 100, 1⟩).failures = 0 ∧
    (recordFailure 500 ⟨5, 1000, 2, .HalfOpen, 0, 100, 1⟩).halfOpenSuccesses = 1 :=
  ⟨rfl, rfl, rfl⟩

/-- Claim C4, amended. A single `recordFailure` on a HalfOpen breaker
transitions the state back to Open and clears the failure counter; the
probe-success counter is left unchanged by `recordFailure` (it is zeroed only
on the next Open→HalfOpen transition). -/
theorem halfOpen_failure_reopens (now : Int) (cb : CircuitBreaker)
    (h : cb.state = .HalfOpen) :
    (recordFailure now cb).state = .Open ∧
    (recordFailure now cb).failures = 0 ∧
    (recordFailure now cb).halfOpenSuccesses = cb.halfOpenSuccesses := by
  simp [recordFailure, h]

/-- Witness for C4 (amended) on a concrete HalfOpen breaker. -/
theorem halfOpen_failure_reopens_witness :
    (recordFailure 500 ⟨5, 1000, 2, .HalfOpen, 3, 100, 1⟩).state = .Open ∧
    (recordFailure 500 ⟨5, 1000, 2, .HalfOpen, 3, 100, 1⟩).failures = 0 ∧
    (recordFailure 500 ⟨5, 1000, 2, .HalfOpen, 3, 100, 1⟩).halfOpenSuccesses =
      (⟨5, 1000, 2, .HalfOpen, 3, 100, 1⟩ : CircuitBreaker).halfOpenSuccesses :=
  halfOpen_failure_reopens 500 ⟨5, 1000, 2, .HalfOpen, 3, 100, 1⟩ rfl

theorem retryAux_allFail (fn : Nat → Option String) (mult : ℚ) (maxD now : Int)
    (hfail : ∀ i, fn i ≠ none) :
    ∀ (r idx : Nat) (delay : Int) (lastErr : Option String) (sleeps : List Int),
      1 ≤ r →
      retryAux fn mult maxD now r idx delay none lastErr sleeps =
        { result := .maxRetries (fn (idx + r - 1)), calls := idx + r,
          sleeps := sleeps ++ (List.range (r - 1)).map (delayIter mult maxD delay),
          breaker := none } := by
  intro r
  induction r with
  | zero => intro idx delay lastErr sleeps h; omega
  | succ r ih =>
      intro idx delay lastErr sleeps _
      obtain ⟨e, he⟩ := Option.ne_none_iff_exists'.mp (hfail idx)
      cases r with
      | zero =>
          simp [retryAux, he]
      | succ r' =>
          have step : retryAux fn mult maxD now (r' + 1 + 1) idx delay none lastErr sleeps =
              retryAux fn mult maxD now (r' + 1) (idx + 1)
                (nextDelay delay mult maxD) none (some e) (sleeps ++ [delay]) := by
            simp [retryAux, he]
          rw [step, ih (idx + 1) (nextDelay delay mult maxD) (some e) (sleeps ++ [delay])
            (by omega)]
          have hidx : idx + 1 + (r' + 1) - 1 = idx + (r' + 1 + 1) - 1 := by omega
          have hcalls : idx + 1 + (r' + 1) = idx + (r' + 1 + 1) := by omega
          have hsleeps :
              sleeps ++ [delay] ++
                  (List.range (r' + 1 - 1)).map (delayIter mult maxD (nextDelay delay mult maxD)) =
                sleeps ++ (List.range (r' + 1 + 1 - 1)).map (delayIter mult maxD delay) := by
            have hr : r' + 1 - 1 = r' := by omega
            have hr2 : r' + 1 + 1 - 1 = r' + 1 := by omega
            rw [hr, hr2, List.range_succ_eq_map, List.map_cons, List.map_map]
            have hcomp : (delayIter mult maxD delay) ∘ Nat.succ =
                delayIter mult maxD (nextDelay delay mult maxD) := by
              funext k
              simp [Function.comp, delayIter]
            rw [hcomp]
            simp [delayIter, List.append_assoc]
          rw [hidx, hcalls, hsleeps]

/-- Claim C2. With no breaker bound and an operation that fails on every
attempt, `RetryWithBackoff` invokes the operation exactly `MaxAttempts` times,
sleeps between consecutive attempts for delays starting at `InitialDelay` and
updated after each sleep to `min(delay × Multiplier, MaxDelay)`, and finally
returns the aggregate max-retries failure wrapping the last underlying
error. -/
theorem retryWithBackoff_allFail (cfg : RetryConfig) (now : Int)
    (fn : Nat → Option String) (hnb : cfg.CircuitBreaker = none) (n : Nat)
    (hn : cfg.MaxAttempts = (n : Int)) (h1 : 1 ≤ n) (hfail : ∀ i, fn i ≠ none) :
    RetryWithBackoff cfg now fn =
      { result := .maxRetries (fn (n - 1)), calls := n,
        sleeps := (List.range (n - 1)).map
          (delayIter cfg.Multiplier cfg.MaxDelay cfg.InitialDelay),
        breaker := none } := by
  unfold RetryWithBackoff
  rw [hnb, hn]
  have htn : ((n : Int)).toNat = n := by omega
  rw [htn]
  simpa using retryAux_allFail fn cfg.Multiplier cfg.MaxDelay now hfail n 0
    cfg.InitialDelay none [] h1

/-- Witness for C2 at the spec's example configuration: maxAttempts=3,
initialDelay=50ms, multiplier=2.0, maxDelay=500ms gives 3 calls and sleeps of
50ms then 100ms. -/
theorem retryWithBackoff_allFail_witness :
    RetryWithBackoff ⟨3, 50000000, 500000000, 2, none⟩ 0 (fun _ => some "boom") =
      { result := .maxRetries (some "boom"), calls := 3,
        sleeps := [50000000, 100000000], breaker := none } := by
  rw [retryWithBackoff_allFail ⟨3, 50000000, 500000000, 2, none⟩ 0
    (fun _ => some "boom") rfl 3 rfl (by norm_num) (fun i => by simp)]
  norm_num [List.range_succ, delayIter, nextDelay]

theorem retryAux_none_eq_plain (fn : Nat → Option String) (mult : ℚ)
    (maxD now : Int) :
    ∀ (r idx : Nat) (delay : Int) (lastErr : Option String) (sleeps : List Int),
      retryAux fn mult maxD now r idx delay none lastErr sleeps =
        specPlainRetryAux fn mult maxD r idx delay lastErr sleeps := by
  intro r
  induction r with
  | zero => intro idx delay lastErr sleeps; rfl
  | succ r ih =>
      intro idx delay lastErr sleeps
      cases he : fn idx with
      | none => simp [retryAux, specPlainRetryAux, he]
      | some e =>
          by_cases hr : r = 0
          · subst hr; simp [retryAux, specPlainRetryAux, he]
          · have hL : retryAux fn mult maxD now (r + 1) idx delay none lastErr sleeps =
                retryAux fn mult maxD now r (idx + 1) (nextDelay delay mult maxD)
                  none (some e) (sleeps ++ [delay]) := by
              simp [retryAux, he, hr]
            have hR : specPlainRetryAux fn mult maxD (r + 1) idx delay lastErr sleeps =
                specPlainRetryAux fn mult maxD r (idx + 1) (nextDelay delay mult maxD)
                  (some e) (sleeps ++ [delay]) := by
              simp [specPlainRetryAux, he, hr]
            rw [hL, hR]
            exact ih (idx + 1) (nextDelay delay mult maxD) (some e) (sleeps ++ [delay])

/-- Claim C5. When a bound breaker's `canExecute` denies the request before an
attempt, `RetryWithBackoff` returns the open-circuit failure (wrapping
`ErrCircuitOpen`) with the operation never invoked, no backoff sleep
performed, and the breaker untouched; and with a nil breaker the executor's
behaviour coincides with the plain retry/backoff loop with no breaker
interaction at all. -/
theorem retryWithBackoff_breaker (cfg : RetryConfig) (now : Int)
    (fn : Nat → Option String) (b : CircuitBreaker)
    (hb : cfg.CircuitBreaker = some b) (hstate : b.state = .Open)
    (helapsed : now - b.lastFailureTime ≤ b.resetTimeout)
    (hatt : 1 ≤ cfg.MaxAttempts) :
    RetryWithBackoff cfg now fn =
      { result := .circuitOpen, calls := 0, sleeps := [], breaker := some b } ∧
    (∀ cfg' : RetryConfig, cfg'.CircuitBreaker = none →
      RetryWithBackoff cfg' now fn = specPlainRetry cfg' fn) := by
  constructor
  · unfold RetryWithBackoff
    rw [hb]
    have hdeny : canExecute now b = (false, b) :=
      (canExecute_open_cases now b hstate).1 helapsed
    obtain ⟨r, hr⟩ : ∃ r, cfg.MaxAttempts.toNat = r + 1 := by
      have : 1 ≤ cfg.MaxAttempts.toNat := by omega
      exact ⟨cfg.MaxAttempts.toNat - 1, by omega⟩
    rw [hr]
    simp [retryAux, hdeny]
  · intro cfg' hnb
    unfold RetryWithBackoff specPlainRetry
    rw [hnb]
    exact retryAux_none_eq_plain fn cfg'.Multiplier cfg'.MaxDelay now
      cfg'.MaxAttempts.toNat 0 cfg'.InitialDelay none []

/-- Witness for C5: a breaker opened at t=100 with resetTimeout 1000 denies at
t=200 and the executor fast-fails without calling the operation; a nil-breaker
config behaves as the plain loop. -/
theorem retryWithBackoff_breaker_witness :
    RetryWithBackoff ⟨3, 50, 500, 2, some ⟨5, 1000, 2, .Open, 5, 100, 0⟩⟩ 200
        (fun _ => some "x") =
      { result := .circuitOpen, calls := 0, sleeps := [],
        breaker := some ⟨5, 1000, 2, .Open, 5, 100, 0⟩ } ∧
    RetryWithBackoff ⟨2, 50, 500, 2, none⟩ 200 (fun _ => some "x") =
      specPlainRetry ⟨2, 50, 500, 2, none⟩ (fun _ => some "x") := by
  have h := retryWithBackoff_breaker ⟨3, 50, 500, 2, some ⟨5, 1000, 2, .Open, 5, 100, 0⟩⟩
    200 (fun _ => some "x") ⟨5, 1000, 2, .Open, 5, 100, 0⟩ rfl rfl (by norm_num)
    (by norm_num)
  exact ⟨h.1, h.2 ⟨2, 50, 500, 2, none⟩ rfl⟩

theorem applyRules_append (rs₁ rs₂ : List Rule) (res : ValidationResult) :
    applyRules res (rs₁ ++ rs₂) = applyRules (applyRules res rs₁) rs₂ :=
  List.foldl_append _ _ _ _

theorem txLoop_eq_applyRules (txs : List TransactionInfo) :
    ∀ (res : ValidationResult) (i : Nat),
      txLoop res i txs = applyRules res (txRulesList i txs) := by
  induction txs with
  | nil => intro res i; rfl
  | cons tx rest ih =>
      intro res i
      rw [show txLoop res i (tx :: rest) =
            txLoop (applyRules res (txRules i tx)) (i + 1) rest from rfl,
        ih, show txRulesList i (tx :: rest) =
            txRules i tx ++ txRulesList (i + 1) rest from rfl,
        applyRules_append]

theorem applyRules_valid (rs : List Rule) :
    ∀ res : ValidationResult,
      (applyRules res rs).Valid = (res.Valid && rs.all fun r => !r.1) := by
  induction rs with
  | nil => intro res; simp [applyRules]
  | cons r rs ih =>
      intro res
      rw [show applyRules res (r :: rs) =
            applyRules (applyRule res r.1 r.2.1 r.2.2) rs from rfl, ih]
      cases hr : r.1 <;> simp [applyRule, hr]

theorem applyRules_msgId (rs : List Rule) :
    ∀ res : ValidationResult, (applyRules res rs).MsgId = res.MsgId := by
  induction rs with
  | nil => intro res; rfl
  | cons r rs ih =>
      intro res
      rw [show applyRules res (r :: rs) =
            applyRules (applyRule res r.1 r.2.1 r.2.2) rs from rfl, ih]
      cases hr : r.1 <;> simp [applyRule, hr]

theorem lastFailingRule_cons (r : Rule) (rs : List Rule) :
    lastFailingRule (r :: rs) =
      ((lastFailingRule rs).or (if r.1 then some r else none)) := by
  unfold lastFailingRule
  rw [List.reverse_cons, List.find?_append]
  cases hr : r.1 <;> simp [List.find?, hr]

theorem applyRules_code (rs : List Rule) :
    ∀ res : ValidationResult,
      (applyRules res rs).ErrorCode =
        match lastFailingRule rs with
        | some r => r.2.1
        | none => res.ErrorCode := by
  induction rs with
  | nil => intro res; simp [applyRules, lastFailingRule, List.find?]
  | cons r rs ih =>
      intro res
      rw [show applyRules res (r :: rs) =
            applyRules (applyRule res r.1 r.2.1 r.2.2) rs from rfl, ih,
        lastFailingRule_cons]
      cases hlast : lastFailingRule rs <;> cases hr : r.1 <;>
        simp [applyRule, hr, Option.or]

theorem lastFailingRule_fails {rs : List Rule} {r : Rule}
    (h : lastFailingRule rs = some r) : r.1 = true ∧ r ∈ rs := by
  unfold lastFailingRule at h
  exact ⟨List.find?_some h, List.mem_reverse.mp (List.mem_of_find?_eq_some h)⟩

/-- Restating `validateTransaction` on a parsed document is the fold of all its rules,
in source order, over the initial result. -/
theorem validateTransaction_eq_applyRules (doc : Document) :
    validateTransaction (some doc) =
      applyRules
        { Valid := true, ErrorCode := "", ErrorMsg := "",
          MsgId := doc.FIToFICstmrCdtTrf.GrpHdr.MsgId }
        (ruleResults doc) := by
  rcases doc with ⟨⟨⟨msgId, nbOfTxs, ⟨sttlmMtd⟩⟩, txs⟩⟩
  cases hmsg : msgId == "" with
  | true =>
      have hm : msgId = "" := by simpa using hmsg
      subst hm
      cases txs with
      | nil =>
          simp [validateTransaction, ruleResults, applyRules, applyRule,
            txRulesList, txLoop, txLoop_eq_applyRules, List.foldl_append]
      | cons tx0 rest =>
          simp [validateTransaction, ruleResults, applyRules, applyRule,
            txLoop_eq_applyRules, List.foldl_append]
  | false =>
      cases txs with
      | nil =>
          simp [validateTransaction, ruleResults, applyRules, applyRule,
            txRulesList, txLoop, txLoop_eq_applyRules, List.foldl_append, hmsg]
      | cons tx0 rest =>
          simp [validateTransaction, ruleResults, applyRules, applyRule,
            txLoop_eq_applyRules, List.foldl_append, hmsg]

/-- Claim C7. `validateTransaction` evaluates every rule (no short-circuit): the
result is valid exactly when all rules pass, and when some rule fails the
result is rejected carrying the code of the last failing rule in the source's
evaluation order — the most specific one encountered, per-transaction rules
being evaluated after the document-level ones. -/
theorem validateTransaction_no_shortcircuit (doc : Document) :
    ((validateTransaction (some doc)).Valid =
      (ruleResults doc).all (fun r => !r.1)) ∧
    (∀ r : Rule, lastFailingRule (ruleResults doc) = some r →
      (validateTransaction (some doc)).Valid = false ∧
      (validateTransaction (some doc)).ErrorCode = r.2.1) := by
  rw [validateTransaction_eq_applyRules]
  refine ⟨by rw [applyRules_valid]; simp, fun r hr => ⟨?_, ?_⟩⟩
  · rw [applyRules_valid]
    obtain ⟨hfail, hmem⟩ := lastFailingRule_fails hr
    have : (ruleResults doc).all (fun r => !r.1) = false := by
      rw [List.all_eq_false]
      exact ⟨r, hmem, by simp [hfail]⟩
    simp [this]
  · rw [applyRules_code, hr]

/-- Witness for C7: on `sampleDocC7` both rules fail and the reported code is
the later, per-transaction one. -/
theorem validateTransaction_no_shortcircuit_witness :
    ((validateTransaction (some sampleDocC7)).Valid =
      (ruleResults sampleDocC7).all (fun r => !r.1)) ∧
    (validateTransaction (some sampleDocC7)).Valid = false ∧
    (validateTransaction (some sampleDocC7)).ErrorCode = "INVALID_CHRG_BR_TX0" := by
  have h := validateTransaction_no_shortcircuit sampleDocC7
  refine ⟨h.1, ?_⟩
  have h2 := h.2 (true, "INVALID_CHRG_BR_TX0",
    "Charge Bearer must be one of: DEBT, CRED, SHAR, SLEV for transaction 0")
    (by decide)
  exact ⟨h2.1, h2.2⟩

/-- Claim C6, counterexample. The claim quantifies over every input message: but
with the liquidity client absent, a message whose XML fails to parse is
rejected with `LIQUIDITY_CHECK_ERROR`, not approved with an empty code. -/
theorem checkLiquidity_failOpen_counterexample :
    (checkLiquidity none (fun _ => none) (fun _ => none) none).1 = false ∧
    (checkLiquidity none (fun _ => none) (fun _ => none) none).2.1 =
      "LIQUIDITY_CHECK_ERROR" :=
  ⟨rfl, rfl⟩

/-- Claim C6, amended. For every input message that parses locally (its XML
unmarshals, and it has no transactions or its first transaction's amount
parses), when the liquidity client is absent or the remote `CheckLiquidity`
call returns a communication error, `checkLiquidity` returns approved with an
empty error code — the dependency check degrades to always-approve and only
local validation (or a local parse failure, which rejects with
`LIQUIDITY_CHECK_ERROR`) can reject the item. -/
theorem checkLiquidity_failOpen (client : Option LiquidityClient)
    (bicMap : String → Option String) (parseFloat : String → Option ℚ)
    (doc : Document)
    (hparse : doc.FIToFICstmrCdtTrf.CdtTrfTxInf = [] ∨
      ∃ tx rest, doc.FIToFICstmrCdtTrf.CdtTrfTxInf = tx :: rest ∧
        (parseFloat tx.IntrBkSttlmAmt.Value).isSome)
    (hdegraded : client = none ∨
      ∃ svc, client = some svc ∧
        ∀ id amt ccy, svc.CheckLiquidity id amt ccy = none) :
    checkLiquidity client bicMap parseFloat (some doc) = (true, "", "", 0) := by
  rcases hparse with htx | ⟨tx, rest, htx, hamt⟩
  · simp [checkLiquidity, htx]
  · obtain ⟨q, hq⟩ := Option.isSome_iff_exists.mp hamt
    rcases hdegraded with hc | ⟨svc, hc, hcomm⟩
    · subst hc; simp [checkLiquidity, htx, hq]
    · subst hc; simp [checkLiquidity, htx, hq, hcomm]

/-- Witness for C6 (amended): a parseable one-transaction document with an
always-unreachable client is approved with an empty code. -/
theorem checkLiquidity_failOpen_witness :
    checkLiquidity (some ⟨fun _ _ _ => none, fun _ _ _ => none⟩)
      (fun _ => none) (fun _ => some 100) (some sampleDocC7) = (true, "", "", 0) :=
  checkLiquidity_failOpen (some ⟨fun _ _ _ => none, fun _ _ _ => none⟩)
    (fun _ => none) (fun _ => some 100) sampleDocC7
    (Or.inr ⟨_, _, rfl, rfl⟩) (Or.inr ⟨_, rfl, fun _ _ _ => rfl⟩)

/-- Claim C9. Local parse failures are rejected, not failed open: an
unparseable message, or a first transaction whose amount string does not
parse, yields approved=false with code `LIQUIDITY_CHECK_ERROR`, for every
client (present or absent). -/
theorem checkLiquidity_localParse_rejects (client : Option LiquidityClient)
    (bicMap : String → Option String) (parseFloat : String → Option ℚ) :
    (checkLiquidity client bicMap parseFloat none =
      (false, "LIQUIDITY_CHECK_ERROR", "Failed to parse XML for liquidity check", 0)) ∧
    (∀ (doc : Document) tx rest,
      doc.FIToFICstmrCdtTrf.CdtTrfTxInf = tx :: rest →
      parseFloat tx.IntrBkSttlmAmt.Value = none →
      checkLiquidity client bicMap parseFloat (some doc) =
        (false, "LIQUIDITY_CHECK_ERROR", "Failed to parse amount", 0)) := by
  refine ⟨rfl, fun doc tx rest htx hamt => ?_⟩
  simp [checkLiquidity, htx, hamt]

/-- Witness for C9: `sampleDocC7` with an amount parser that rejects
everything. -/
theorem checkLiquidity_localParse_rejects_witness :
    (checkLiquidity none (fun _ => none) (fun _ => none) none =
      (false, "LIQUIDITY_CHECK_ERROR", "Failed to parse XML for liquidity check", 0)) ∧
    checkLiquidity none (fun _ => none) (fun _ => none) (some sampleDocC7) =
      (false, "LIQUIDITY_CHECK_ERROR", "Failed to parse amount", 0) := by
  have h := checkLiquidity_localParse_rejects none (fun _ => none) (fun _ => none)
  exact ⟨h.1, h.2 sampleDocC7 _ _ rfl rfl⟩

/-- Claim C10. For a work item whose raw XML fails to unmarshal or whose
document has zero `CdtTrfTxInf` entries, `broadcastTransactionToWS` sends
nothing to the hub, yet the worker still produces a `ValidationResult` for
the results channel. -/
theorem broadcast_skipped_result_still_produced
    (client : Option LiquidityClient) (bicMap : String → Option String)
    (parseFloat scan : String → Option ℚ) (data : Option Document)
    (h : data = none ∨
      ∃ doc, data = some doc ∧ doc.FIToFICstmrCdtTrf.CdtTrfTxInf = []) :
    (processItem client bicMap parseFloat scan data).2 = none ∧
    ∃ r : ValidationResult,
      processItem client bicMap parseFloat scan data = (r, none) := by
  have hb : ∀ res : ValidationResult,
      broadcastTransactionToWS scan res data = none := by
    intro res
    rcases h with hd | ⟨doc, hd, htx⟩ <;> subst hd
    · rfl
    · simp [broadcastTransactionToWS, htx]
  have h2 : (processItem client bicMap parseFloat scan data).2 = none := by
    unfold processItem
    simp only [hb]
    split <;> rfl
  exact ⟨h2, (processItem client bicMap parseFloat scan data).1, by
    rw [← h2]⟩

/-- Witness for C10: an unparseable item and a parseable zero-transaction
document both produce a result and no broadcast. -/
theorem broadcast_skipped_result_still_produced_witness :
    (processItem none (fun _ => none) (fun _ => none) (fun _ => none) none).2 =
      none ∧
    ∃ r : ValidationResult,
      processItem none (fun _ => none) (fun _ => none) (fun _ => none) none =
        (r, none) :=
  broadcast_skipped_result_still_produced none (fun _ => none) (fun _ => none)
    (fun _ => none) none (Or.inl rfl)

/-- Claim C8. In a broadcast step every subscriber either gets the message
enqueued on its send buffer and stays in the set, or (when its buffer is
full) is evicted; and every subscriber remaining in the set after the step
has the message at the tail of its buffer — no subscriber both stays and
misses the message. -/
theorem hub_broadcast_deliver_or_evict (clients : List WSClient) (m : String)
    (c : WSClient) (hc : c ∈ clients) :
    (c.send.length < c.cap →
      { c with send := c.send ++ [m] } ∈ (runBroadcastStep clients m).1) ∧
    (c.cap ≤ c.send.length → c ∈ (runBroadcastStep clients m).2) ∧
    (∀ c' ∈ (runBroadcastStep clients m).1, c'.send.getLast? = some m) := by
  refine ⟨fun hroom => ?_, fun hfull => ?_, fun c' hc' => ?_⟩
  · exact List.mem_filterMap.mpr ⟨c, hc, by simp [offerOrEvict, hroom]⟩
  · exact List.mem_filter.mpr ⟨hc, by simp [offerOrEvict]; omega⟩
  · obtain ⟨a, _, ha⟩ := List.mem_filterMap.mp hc'
    unfold offerOrEvict at ha
    by_cases hroom : a.send.length < a.cap
    · rw [if_pos hroom] at ha
      cases ha
      exact List.getLast?_concat _
    · rw [if_neg hroom] at ha
      exact absurd ha (by simp)

/-- Witness for C8: two clients, one with room and one with a full buffer;
the first receives the broadcast, the second is evicted, and every remaining
client ends with the message last in its buffer. -/
theorem hub_broadcast_deliver_or_evict_witness :
    ((⟨1, 2, []⟩ : WSClient).send.length < (⟨1, 2, []⟩ : WSClient).cap →
      (⟨1, 2, ["hello"]⟩ : WSClient) ∈
        (runBroadcastStep [⟨1, 2, []⟩, ⟨2, 1, ["old"]⟩] "hello").1) ∧
    ((⟨1, 2, []⟩ : WSClient).cap ≤ (⟨1, 2, []⟩ : WSClient).send.length →
      (⟨1, 2, []⟩ : WSClient) ∈
        (runBroadcastStep [⟨1, 2, []⟩, ⟨2, 1, ["old"]⟩] "hello").2) ∧
    (∀ c' ∈ (runBroadcastStep [⟨1, 2, []⟩, ⟨2, 1, ["old"]⟩] "hello").1,
      c'.send.getLast? = some "hello") :=
  hub_broadcast_deliver_or_evict [⟨1, 2, []⟩, ⟨2, 1, ["old"]⟩] "hello"
    ⟨1, 2, []⟩ (by simp)

end NexusLite
